import Mathlib

/-!
Verification of the calendar-normalization and event-reconciliation core of
the `scraper-caffe` repository, as a shallow embedding in Lean 4.

Source files embedded here:
  * `src/dates.rs` — `DateRange` with `overlaps` and `contains`.
  * `src/events.rs` — `Event`, `EventVariants::add_events`.
  * `src/venues/cinemas/mod.rs` — `MovieGroup::add_movie` and the pure
    group-reconciliation tail of `fetch`.
  * `src/venues/mod.rs` — `CacheManager::get_or_fetch` (filesystem modelled
    as an association list of path/content pairs).
  * `src/venues/theaters/verdi.rs` — `parse_date` / `parse_single_date` /
    `parse_multiple_dates` (strings modelled as `List Char`).

The repository's `dates` module items `DateSet`, `TimeFrame`, `TimeFrame::merge`
and the full Italian month-name table are referenced by the sources above but
their defining code is not present under `src/`; those definitions are modelled
from the specification and are marked as such in their doc comments.
-/

/-! ## Calendar model: `NaiveDate` and `DateRange` (from `src/dates.rs`) -/

/-- Model of `chrono::NaiveDate`: a calendar date. Rust's `NaiveDate` can only
be constructed valid; here arbitrary field values are representable, which only
enlarges the domain the universally quantified theorems cover. -/
structure NaiveDate where
  year : Int
  month : Nat
  day : Nat
deriving DecidableEq, Repr

/-- Chronological comparison of dates, mirroring `chrono`'s `Ord` on
`NaiveDate` (lexicographic on year, month, day). -/
def dateLe (a b : NaiveDate) : Bool :=
  decide (a.year < b.year) ||
    (decide (a.year = b.year) &&
      (decide (a.month < b.month) ||
        (decide (a.month = b.month) && decide (a.day ≤ b.day))))

/-- Strict version used by min/max computations. -/
def dateMin (a b : NaiveDate) : NaiveDate := if dateLe a b then a else b

def dateMax (a b : NaiveDate) : NaiveDate := if dateLe a b then b else a

/-- `DateRange` from `src/dates.rs`: an inclusive span `[start_date, end_date]`. -/
structure DateRange where
  start_date : NaiveDate
  end_date : NaiveDate
deriving DecidableEq, Repr

namespace DateRange

/-- `DateRange::new` from `src/dates.rs`. -/
def new (start_date end_date : NaiveDate) : DateRange := ⟨start_date, end_date⟩

/-- `DateRange::overlaps` from `src/dates.rs` line 34:
`self.start_date <= other.end_date && self.end_date >= other.start_date`. -/
def overlaps (self other : DateRange) : Bool :=
  dateLe self.start_date other.end_date && dateLe other.start_date self.end_date

/-- `DateRange::contains` from `src/dates.rs` line 39:
`date >= self.start_date && date <= self.end_date`. -/
def contains (self : DateRange) (date : NaiveDate) : Bool :=
  dateLe self.start_date date && dateLe date self.end_date

end DateRange

/-- C3: `DateRange::overlaps` is a symmetric, reflexive (on well-formed ranges,
whose invariant `start_date <= end_date` callers must maintain), closed-interval
test: `a.overlaps b = b.overlaps a` for all ranges, `a.overlaps a` holds whenever
`a` satisfies the range invariant, and the ranges [Jan 1, Jan 5] and
[Jan 5, Jan 10] of 2025, which share only a boundary day, count as overlapping. -/
theorem c3_overlaps_symm_refl_boundary :
    (∀ a b : DateRange, a.overlaps b = b.overlaps a)
    ∧ (∀ a : DateRange, dateLe a.start_date a.end_date = true → a.overlaps a = true)
    ∧ DateRange.overlaps ⟨⟨2025, 1, 1⟩, ⟨2025, 1, 5⟩⟩ ⟨⟨2025, 1, 5⟩, ⟨2025, 1, 10⟩⟩ = true := by
  refine ⟨fun a b => ?_, fun a h => ?_, by decide⟩
  · simp only [DateRange.overlaps]
    exact Bool.and_comm _ _
  · simp only [DateRange.overlaps, h, Bool.and_self]

/-- Witness for C3: the reflexivity part applied to the concrete well-formed
range [Mar 10, Mar 12] 2025. -/
theorem c3_overlaps_witness :
    dateLe (NaiveDate.mk 2025 3 10) (NaiveDate.mk 2025 3 12) = true
    ∧ DateRange.overlaps ⟨⟨2025, 3, 10⟩, ⟨2025, 3, 12⟩⟩ ⟨⟨2025, 3, 10⟩, ⟨2025, 3, 12⟩⟩ = true :=
  ⟨by decide, c3_overlaps_symm_refl_boundary.2.1 ⟨⟨2025, 3, 10⟩, ⟨2025, 3, 12⟩⟩ (by decide)⟩

/-- C10: for every range `r` and date `d`, `r.contains d` agrees with
`r.overlaps (DateRange::new(d, d))`, and both are equivalent to
`r.start_date <= d && d <= r.end_date`, so single-day membership and
singleton-range overlap are interchangeable filtering predicates. -/
theorem c10_contains_iff_singleton_overlap :
    ∀ (r : DateRange) (d : NaiveDate),
      (r.contains d = true ↔ r.overlaps (DateRange.new d d) = true)
      ∧ (r.contains d = true ↔
          (dateLe r.start_date d = true ∧ dateLe d r.end_date = true)) := by
  intro r d
  constructor
  · rfl
  · simp only [DateRange.contains, Bool.and_eq_true]

/-! ## `DateSet` and `TimeFrame` (referenced by `src/events.rs` and the venue
modules; their defining code is not under `src/`) -/

/-- Modelled from the spec: `DateSet` is "an unordered, non-empty collection of
calendar dates representing discrete occurrences"; `DateSet::new` fails on an
empty collection; `first()`/`last()` are the chronological min/max and
`as_range()` the bounding `DateRange`. The defining module is referenced by
`src/events.rs` and every venue scraper but is not present under `src/`. -/
structure DateSet where
  dates : List NaiveDate
deriving DecidableEq, Repr

namespace DateSet

/-- Modelled from the spec: `DateSet::new(dates) -> DateSet | fails if empty`. -/
def new (l : List NaiveDate) : Option DateSet :=
  if l.isEmpty then none else some ⟨l⟩

/-- Modelled from the spec: chronological minimum (unspecified on an empty set,
which the non-empty invariant prevents). -/
def first (s : DateSet) : NaiveDate :=
  match s.dates with
  | [] => ⟨0, 1, 1⟩
  | h :: t => t.foldl dateMin h

/-- Modelled from the spec: chronological maximum. -/
def last (s : DateSet) : NaiveDate :=
  match s.dates with
  | [] => ⟨0, 1, 1⟩
  | h :: t => t.foldl dateMax h

/-- Modelled from the spec: the bounding `DateRange` of the set. -/
def as_range (s : DateSet) : DateRange := DateRange.new s.first s.last

end DateSet

/-- Modelled from the spec: `TimeFrame` is the tagged union
`{Dates(DateSet) | Period(DateRange)}` attached to every `Event`. -/
inductive TimeFrame where
  | Dates (set : DateSet)
  | Period (range : DateRange)
deriving DecidableEq, Repr

namespace TimeFrame

/-- Modelled from the spec: `TimeFrame::merge` has "union semantics per
variant (`Dates+Dates` → set union+dedup; `Period+Period` → min/max widening);
merging a `Dates` frame with a `Period` frame is an unsupported operation"
that is "currently unimplemented/panics" in the source. The loud failure of
the cross-variant case is modelled as `none`; the merge body itself is not
present under `src/`. -/
def merge : TimeFrame → TimeFrame → Option TimeFrame
  | Dates a, Dates b => some (Dates ⟨(a.dates ++ b.dates).dedup⟩)
  | Period a, Period b =>
      some (Period ⟨dateMin a.start_date b.start_date, dateMax a.end_date b.end_date⟩)
  | _, _ => none

end TimeFrame

/-- C1: for every pair of time frames of different variants (a `Dates` frame and
a `Period` frame, in either order), `TimeFrame::merge` is unsupported and fails
loudly — it signals the failure instead of ever producing a frame, so no merge
of cross-variant frames can silently drop or coerce one side's dates. -/
theorem c1_cross_variant_merge_fails :
    ∀ (ds : DateSet) (dr : DateRange),
      TimeFrame.merge (TimeFrame.Dates ds) (TimeFrame.Period dr) = none
      ∧ TimeFrame.merge (TimeFrame.Period dr) (TimeFrame.Dates ds) = none := by
  intro ds dr
  exact ⟨rfl, rfl⟩

/-! ## Event model (from `src/events.rs`) and movie groups
(from `src/venues/cinemas/mod.rs`) -/

/-- Outcome of running a piece of Rust code that may panic. -/
inductive PanicOr (α : Type) where
  | panic
  | ret (a : α)
deriving DecidableEq, Repr

/-- `Event` from `src/events.rs`. `HashSet<String>` fields are modelled as
`Finset String`; equality and hashing in the source are keyed solely on `id`. -/
structure Event where
  id : String
  title : String
  category : String
  locations : Finset String
  time_frame : Option TimeFrame
  description : Option String
  summary : Option String
  tags : Finset String
deriving DecidableEq

/-- `EventVariants` from `src/events.rs`. -/
structure EventVariants where
  id : String
  title : String
  category : String
  description : Option String
  events : List Event
deriving DecidableEq

namespace EventVariants

/-- One iteration of the loop body of `EventVariants::add_events`
(`src/events.rs` lines 168-174): find the first event with the same `id`
(the source's `PartialEq` compares only `id`); if found, extend its
locations with the new event's, otherwise push the new event. -/
def addOne : List Event → Event → List Event
  | [], e => [e]
  | x :: rest, e =>
      if x.id = e.id then { x with locations := x.locations ∪ e.locations } :: rest
      else x :: addOne rest e

/-- `EventVariants::add_events` from `src/events.rs` lines 167-175. -/
def add_events (self : EventVariants) (events : List Event) : EventVariants :=
  { self with events := events.foldl addOne self.events }

end EventVariants

/-- `MovieGroup` from `src/venues/cinemas/mod.rs`; the `HashSet<Event>` keyed
on `id` is modelled as a list looked up by `id`. -/
structure MovieGroup where
  title : String
  description : Option String
  movies : List Event
deriving DecidableEq

/-- Model of `HashSet::take(&movie)` on a set keyed by `id`: remove and return
the stored event whose `id` matches, if any. -/
def takeById : List Event → String → Option (Event × List Event)
  | [], _ => none
  | e :: rest, i =>
      if e.id = i then some (e, rest)
      else (takeById rest i).map (fun p => (p.1, e :: p.2))

namespace MovieGroup

/-- `MovieGroup::add_movie` from `src/venues/cinemas/mod.rs` lines 34-50:
take the colliding movie out of the set, extend its locations, merge the time
frames when both are present (the cross-variant case makes `merge` fail
loudly, modelled as a panic), and insert the result back. -/
def add_movie (self : MovieGroup) (movie : Event) : PanicOr MovieGroup :=
  match takeById self.movies movie.id with
  | none => PanicOr.ret { self with movies := self.movies ++ [movie] }
  | some (ext, rest) =>
      let ext1 : Event := { ext with locations := ext.locations ∪ movie.locations }
      match movie.time_frame, ext1.time_frame with
      | some old_tf, some ext_tf =>
          match TimeFrame.merge ext_tf old_tf with
          | some new_tf =>
              PanicOr.ret { self with movies := rest ++ [{ ext1 with time_frame := some new_tf }] }
          | none => PanicOr.panic
      | _, _ => PanicOr.ret { self with movies := rest ++ [ext1] }

end MovieGroup

/-- Fixture date Jan 1, 2025. -/
def dJan1 : NaiveDate := ⟨2025, 1, 1⟩

/-- Fixture date Jan 2, 2025. -/
def dJan2 : NaiveDate := ⟨2025, 1, 2⟩

/-- Fixture event with id "x" at location "A", showing on Jan 1. -/
def evA : Event :=
  { id := "x", title := "X", category := "Teatri", locations := {"A"},
    time_frame := some (TimeFrame.Dates ⟨[dJan1]⟩),
    description := none, summary := none, tags := ∅ }

/-- Fixture event with the same id "x" at location "B", showing on Jan 2. -/
def evB : Event :=
  { id := "x", title := "X", category := "Teatri", locations := {"B"},
    time_frame := some (TimeFrame.Dates ⟨[dJan2]⟩),
    description := none, summary := none, tags := ∅ }

/-- Fixture event with the same id "x" and no time frame. -/
def evC : Event :=
  { id := "x", title := "X", category := "Teatri", locations := {"C"},
    time_frame := none,
    description := none, summary := none, tags := ∅ }

/-- Fixture variant group holding only `evA`. -/
def gv0 : EventVariants := ⟨"x", "X", "Teatri", none, [evA]⟩

/-- C2 counterexample: in `EventVariants::add_events`, a collision between two
events with the same `id` that both carry `Dates` time frames merges the
location sets but leaves the existing event's time frame untouched — the
resulting frame is still `{Jan 1}`, which omits the new event's date Jan 2, so
the merged time frame is not the union of the two date sets as claimed. -/
theorem c2_add_events_no_frame_union :
    (gv0.add_events [evB]).events = [{ evA with locations := {"A", "B"} }]
    ∧ evA.time_frame = some (TimeFrame.Dates ⟨[dJan1]⟩)
    ∧ evB.time_frame = some (TimeFrame.Dates ⟨[dJan2]⟩)
    ∧ dJan2 ∉ ([dJan1] : List NaiveDate) := by
  refine ⟨?_, rfl, rfl, by decide⟩
  decide

/-- C2 as amended: on an `id` collision the merged event's locations become the
union of the two location sets while its `id`, `title` and `tags` (and in
`add_events` also its time frame) are unchanged; in `MovieGroup::add_movie`,
when both events carry `Dates` time frames the merged frame is the union of the
two date sets, and when either side has no time frame the new record's
locations are still added with the existing frame kept. -/
theorem c2_collision_merge_amended :
    (∀ (x : Event) (l : List Event) (e : Event), x.id = e.id →
        EventVariants.addOne (x :: l) e =
          { x with locations := x.locations ∪ e.locations } :: l)
    ∧ (∀ (g : MovieGroup) (m ext : Event) (rest : List Event)
          (ds1 ds2 : DateSet),
        takeById g.movies m.id = some (ext, rest) →
        ext.time_frame = some (TimeFrame.Dates ds1) →
        m.time_frame = some (TimeFrame.Dates ds2) →
        g.add_movie m = PanicOr.ret (MovieGroup.mk g.title g.description
          (rest ++ [{ ext with
                       locations := ext.locations ∪ m.locations,
                       time_frame := some (TimeFrame.Dates ⟨(ds1.dates ++ ds2.dates).dedup⟩) }])))
    ∧ (∀ (g : MovieGroup) (m ext : Event) (rest : List Event),
        takeById g.movies m.id = some (ext, rest) →
        (m.time_frame = none ∨ ext.time_frame = none) →
        g.add_movie m = PanicOr.ret (MovieGroup.mk g.title g.description
          (rest ++ [{ ext with locations := ext.locations ∪ m.locations }]))) := by
  refine ⟨fun x l e h => ?_, fun g m ext rest ds1 ds2 htake hext hm => ?_, ?_⟩
  · simp only [EventVariants.addOne, h, if_pos]
  · simp only [MovieGroup.add_movie, htake, hm, hext, TimeFrame.merge]
  · rintro g m ext rest htake (hm | hext)
    · simp only [MovieGroup.add_movie, htake, hm]
    · simp only [MovieGroup.add_movie, htake, hext]
      cases m.time_frame <;> rfl

/-- Fixture movie group holding only `evA`. -/
def mg0 : MovieGroup := ⟨"X", none, [evA]⟩

/-- Fixture movie group holding only the frameless `evC`. -/
def mg1 : MovieGroup := ⟨"X", none, [evC]⟩

/-- Witness for the amended C2: the three collision rules applied to concrete
events — `evB` colliding with `evA` in a variant list, `evB` colliding with
`evA` in a movie group (both frames `Dates`), and `evB` colliding with the
frameless `evC`. -/
theorem c2_collision_merge_witness :
    EventVariants.addOne [evA] evB = [{ evA with locations := {"A"} ∪ {"B"} }]
    ∧ mg0.add_movie evB = PanicOr.ret (MovieGroup.mk mg0.title mg0.description
        [{ evA with
            locations := {"A"} ∪ {"B"},
            time_frame := some (TimeFrame.Dates ⟨([dJan1] ++ [dJan2]).dedup⟩) }])
    ∧ mg1.add_movie evB = PanicOr.ret (MovieGroup.mk mg1.title mg1.description
        [{ evC with locations := {"C"} ∪ {"B"} }]) :=
  ⟨c2_collision_merge_amended.1 evA [] evB rfl,
   c2_collision_merge_amended.2.1 mg0 evB evA [] ⟨[dJan1]⟩ ⟨[dJan2]⟩ (by decide) rfl rfl,
   c2_collision_merge_amended.2.2 mg1 evB evC [] (by decide) (Or.inr rfl)⟩

/-! ## Character-level helpers shared by the parsers and the cache model.
Rust string slices are modelled as `List Char`. -/

/-- Value of an ASCII digit character. -/
def digitVal (c : Char) : Option Nat :=
  if c.isDigit then some (c.toNat - 48) else none

def parseNatAux : List Char → Nat → Option Nat
  | [], acc => some acc
  | c :: cs, acc =>
      match digitVal c with
      | some d => parseNatAux cs (acc * 10 + d)
      | none => none

/-- Parse a non-empty all-digit character sequence as a natural number. -/
def parseNat? (s : List Char) : Option Nat :=
  match s with
  | [] => none
  | _ => parseNatAux s 0

def natSerAux : Nat → Nat → List Char
  | 0, _ => []
  | fuel+1, n =>
      if n < 10 then [Char.ofNat (48 + n)]
      else natSerAux fuel (n / 10) ++ [Char.ofNat (48 + n % 10)]

/-- Decimal rendering of a natural number. -/
def natSer (n : Nat) : String := String.mk (natSerAux (n + 1) n)

/-! ## Result cache (from `src/venues/mod.rs`, `CacheManager::get_or_fetch`) -/

/-- The filesystem visible to the cache, modelled as an association list from
path to file content; the head entry for a path is its current content. -/
abbrev FS := List (String × String)

/-- Model of reading a file: the content of the most recent write, if any
file exists at the path. -/
def FS.read (fs : FS) (p : String) : Option String :=
  (fs.find? (fun kv => kv.1 == p)).map (fun kv => kv.2)

/-- Model of `fs::write`: a new entry shadowing any previous one. -/
def FS.write (fs : FS) (p c : String) : FS := (p, c) :: fs

theorem FS.read_write (fs : FS) (p c : String) : FS.read (FS.write fs p c) p = some c := by
  simp [FS.read, FS.write, List.find?]

/-- Serialization dictionary for a cached payload type, modelling
`serde_json::to_string` / `serde_json::from_str`. -/
structure SerDe (V : Type) where
  ser : V → String
  deser : String → Except String V

/-- `CacheManager` from `src/venues/mod.rs`; `cache_dir` already holds
`"cache/<category>"` as built by `CacheManager::new` / `set_category`. -/
structure CacheManager where
  cache_dir : String
  cache : Bool
  rebuild : Bool
  venues_to_rebuild : List String
  venues_to_skip : List String

/-- The cache file path `<cache_dir>/<venue_name>.json` built at
`src/venues/mod.rs` line 59. -/
def cachePath (cm : CacheManager) (venue : String) : String :=
  cm.cache_dir ++ "/" ++ venue ++ ".json"

/-- `CacheManager::get_or_fetch` from `src/venues/mod.rs` lines 49-84.
The fetcher is modelled by its outcome; the returned `Bool` records whether
the fetcher was invoked. Directory creation is a no-op on the modelled
filesystem, and file reads of existing entries succeed. -/
def getOrFetch {V : Type} (sd : SerDe V) (cm : CacheManager) (fs : FS)
    (venue : String) (fetcher : Except String V) :
    Except String (Option V) × FS × Bool :=
  if cm.venues_to_skip.contains venue then (Except.ok none, fs, false)
  else
    match
      (if cm.cache && !cm.rebuild && !cm.venues_to_rebuild.contains venue then
        FS.read fs (cachePath cm venue)
      else none) with
    | some content =>
        match sd.deser content with
        | Except.ok v => (Except.ok (some v), fs, false)
        | Except.error e => (Except.error e, fs, false)
    | none =>
        match fetcher with
        | Except.error e => (Except.error e, fs, true)
        | Except.ok v =>
            if cm.cache then
              (Except.ok (some v), FS.write fs (cachePath cm venue) (sd.ser v), true)
            else (Except.ok (some v), fs, true)

/-- C4: with caching enabled and the venue neither skipped nor marked for
rebuild (globally or individually), starting from no cache file for the venue
and a serialization that round-trips, the first `get_or_fetch` call invokes the
fetcher and returns its data, and a second call with the same fetcher does not
invoke it, returns the same data deserialized from the cache file written by
the first call, and leaves the filesystem unchanged. -/
theorem c4_cache_round_trip {V : Type} (sd : SerDe V) (cm : CacheManager)
    (fs : FS) (venue : String) (v : V)
    (hcache : cm.cache = true) (hrebuild : cm.rebuild = false)
    (hnotforced : venue ∉ cm.venues_to_rebuild)
    (hnotskip : venue ∉ cm.venues_to_skip)
    (hmiss : FS.read fs (cachePath cm venue) = none)
    (hround : sd.deser (sd.ser v) = Except.ok v) :
    (getOrFetch sd cm fs venue (Except.ok v)).2.2 = true
    ∧ (getOrFetch sd cm fs venue (Except.ok v)).1 = Except.ok (some v)
    ∧ (getOrFetch sd cm (getOrFetch sd cm fs venue (Except.ok v)).2.1 venue
        (Except.ok v)).2.2 = false
    ∧ (getOrFetch sd cm (getOrFetch sd cm fs venue (Except.ok v)).2.1 venue
        (Except.ok v)).1 = Except.ok (some v)
    ∧ (getOrFetch sd cm (getOrFetch sd cm fs venue (Except.ok v)).2.1 venue
        (Except.ok v)).2.1 = (getOrFetch sd cm fs venue (Except.ok v)).2.1 := by
  have h1 : getOrFetch sd cm fs venue (Except.ok v) =
      (Except.ok (some v), FS.write fs (cachePath cm venue) (sd.ser v), true) := by
    simp [getOrFetch, hcache, hrebuild, hnotforced, hnotskip, hmiss]
  have h2 : getOrFetch sd cm (FS.write fs (cachePath cm venue) (sd.ser v)) venue
      (Except.ok v) =
      (Except.ok (some v), FS.write fs (cachePath cm venue) (sd.ser v), false) := by
    simp [getOrFetch, hcache, hrebuild, hnotforced, hnotskip, FS.read_write, hround]
  rw [h1]
  exact ⟨rfl, rfl, by rw [h2], by rw [h2], by rw [h2]⟩

/-- Concrete serialization dictionary for `Nat` payloads: decimal strings,
with non-numeric content rejected as corrupt. -/
def sdNat : SerDe Nat :=
  ⟨fun n => natSer n,
   fun s => match parseNat? s.data with
     | some n => Except.ok n
     | none => Except.error "corrupt"⟩

/-- Concrete cache manager for the cinema category with caching on and no
skip or rebuild lists. -/
def cmCinema : CacheManager := ⟨"cache/cinema", true, false, [], []⟩

/-- Witness for C4: the round trip at a concrete `Nat` payload on an empty
filesystem. -/
theorem c4_cache_round_trip_witness :
    (getOrFetch sdNat cmCinema [] "triestecinema" (Except.ok 42)).2.2 = true
    ∧ (getOrFetch sdNat cmCinema [] "triestecinema" (Except.ok 42)).1 = Except.ok (some 42)
    ∧ (getOrFetch sdNat cmCinema
        (getOrFetch sdNat cmCinema [] "triestecinema" (Except.ok 42)).2.1 "triestecinema"
        (Except.ok 42)).2.2 = false
    ∧ (getOrFetch sdNat cmCinema
        (getOrFetch sdNat cmCinema [] "triestecinema" (Except.ok 42)).2.1 "triestecinema"
        (Except.ok 42)).1 = Except.ok (some 42)
    ∧ (getOrFetch sdNat cmCinema
        (getOrFetch sdNat cmCinema [] "triestecinema" (Except.ok 42)).2.1 "triestecinema"
        (Except.ok 42)).2.1 = (getOrFetch sdNat cmCinema [] "triestecinema" (Except.ok 42)).2.1 :=
  c4_cache_round_trip sdNat cmCinema [] "triestecinema" 42 rfl rfl (by decide) (by decide)
    rfl rfl

/-- The filesystem of the C7 counterexample: the venue's cache file exists but
holds content the deserializer rejects. -/
def fsCorrupt : FS := [("cache/cinema/triestecinema.json", "garbage")]

/-- C7 counterexample: with caching enabled and a cache file present whose
content fails to deserialize, `get_or_fetch` does not degrade to a cache miss —
the fetcher is not invoked and the deserialization error is returned to the
caller as a hard error. -/
theorem c7_corrupt_cache_is_hard_error :
    (getOrFetch sdNat cmCinema fsCorrupt "triestecinema" (Except.ok 42)).2.2 = false
    ∧ (getOrFetch sdNat cmCinema fsCorrupt "triestecinema" (Except.ok 42)).1 =
        Except.error "corrupt" := by
  constructor <;> rfl

/-- C7 as amended: when a cache file exists for the venue and caching is
enabled with no skip or rebuild, a deserialization failure of the cached
content propagates to the caller as a hard error; the fetch function is not
invoked and the filesystem is unchanged. -/
theorem c7_corrupt_cache_amended {V : Type} (sd : SerDe V) (cm : CacheManager)
    (fs : FS) (venue content err : String) (fetcher : Except String V)
    (hcache : cm.cache = true) (hrebuild : cm.rebuild = false)
    (hnotforced : venue ∉ cm.venues_to_rebuild)
    (hnotskip : venue ∉ cm.venues_to_skip)
    (hhit : FS.read fs (cachePath cm venue) = some content)
    (hbad : sd.deser content = Except.error err) :
    getOrFetch sd cm fs venue fetcher = (Except.error err, fs, false) := by
  simp [getOrFetch, hcache, hrebuild, hnotforced, hnotskip, hhit, hbad]

/-- Witness for the amended C7: the corrupt-cache scenario at concrete inputs. -/
theorem c7_corrupt_cache_amended_witness :
    getOrFetch sdNat cmCinema fsCorrupt "triestecinema" (Except.ok 42) =
      (Except.error "corrupt", fsCorrupt, false) :=
  c7_corrupt_cache_amended sdNat cmCinema fsCorrupt "triestecinema" "garbage" "corrupt"
    (Except.ok 42) rfl rfl (by decide) (by decide) rfl rfl

/-- C8: a call to `get_or_fetch` whose fetcher fails never changes the
filesystem — no partial or poison cache entry is written — and whenever the
fetcher is actually invoked, its error propagates to the caller. -/
theorem c8_failed_fetch_uncached {V : Type} (sd : SerDe V) (cm : CacheManager)
    (fs : FS) (venue e : String) :
    (getOrFetch sd cm fs venue (Except.error e : Except String V)).2.1 = fs
    ∧ ((getOrFetch sd cm fs venue (Except.error e : Except String V)).2.2 = true →
        (getOrFetch sd cm fs venue (Except.error e : Except String V)).1 =
          Except.error e) := by
  unfold getOrFetch
  split
  · exact ⟨rfl, fun h => absurd h (by simp)⟩
  · split
    · split
      · exact ⟨rfl, fun h => absurd h (by simp)⟩
      · exact ⟨rfl, fun h => absurd h (by simp)⟩
    · exact ⟨rfl, fun _ => rfl⟩

/-- Witness for C8: a failing fetch at concrete inputs is invoked, propagates
its error and leaves the empty filesystem untouched. -/
theorem c8_failed_fetch_uncached_witness :
    (getOrFetch sdNat cmCinema [] "the_space" (Except.error "boom")).2.1 = ([] : FS)
    ∧ (getOrFetch sdNat cmCinema [] "the_space" (Except.error "boom")).2.2 = true
    ∧ (getOrFetch sdNat cmCinema [] "the_space" (Except.error "boom")).1 =
        Except.error "boom" :=
  ⟨(c8_failed_fetch_uncached sdNat cmCinema [] "the_space" "boom").1, rfl,
   (c8_failed_fetch_uncached sdNat cmCinema [] "the_space" "boom").2 rfl⟩

/-! ## Verdi date parser (from `src/venues/theaters/verdi.rs`) -/

/-- A Rust `&str`, modelled as its character sequence. -/
abbrev Str := List Char

/-- Rust `char::is_whitespace` restricted to the whitespace characters Lean
knows; ASCII space suffices for the embedded grammars. -/
def isWs (c : Char) : Bool := c.isWhitespace

/-- Model of `str::trim`. -/
def trimChars (s : Str) : Str :=
  ((s.dropWhile isWs).reverse.dropWhile isWs).reverse

/-- Model of `str::split(c)`: the (possibly empty) chunks between occurrences
of `c`, at least one chunk. -/
def splitOnChar (c : Char) : Str → List Str
  | [] => [[]]
  | x :: xs =>
      if x = c then [] :: splitOnChar c xs
      else
        match splitOnChar c xs with
        | [] => [[x]]
        | h :: t => (x :: h) :: t

/-- Chunks between characters satisfying `p`, empties included. -/
def splitPred (p : Char → Bool) : Str → List Str
  | [] => [[]]
  | x :: xs =>
      if p x then [] :: splitPred p xs
      else
        match splitPred p xs with
        | [] => [[x]]
        | h :: t => (x :: h) :: t

/-- Model of `str::split_whitespace`: only the non-empty chunks. -/
def splitWhitespace (s : Str) : List Str :=
  (splitPred isWs s).filter (fun w => w ≠ [])

/-- Model of `str::parse::<u32>()`: optional leading `+`, then decimal digits,
rejecting values outside `u32`. -/
def parseU32? (s : Str) : Option Nat :=
  match s with
  | '+' :: rest => (parseNat? rest).filter (fun n => n < 4294967296)
  | _ => (parseNat? s).filter (fun n => n < 4294967296)

/-- Modelled from the spec: the Italian month-name table with "full and
abbreviated forms, case-insensitive". The table used by the theater scrapers
is imported from the repository's `dates` module, whose defining code is not
under `src/` (the stale `src/dates.rs` copy holds only capitalized
abbreviations, which would not satisfy the Verdi module's own tests). -/
def italian_month_to_number (s : Str) : Option Nat :=
  match String.mk (s.map Char.toLower) with
  | "gennaio" | "gen" => some 1
  | "febbraio" | "feb" => some 2
  | "marzo" | "mar" => some 3
  | "aprile" | "apr" => some 4
  | "maggio" | "mag" => some 5
  | "giugno" | "giu" => some 6
  | "luglio" | "lug" => some 7
  | "agosto" | "ago" => some 8
  | "settembre" | "set" => some 9
  | "ottobre" | "ott" => some 10
  | "novembre" | "nov" => some 11
  | "dicembre" | "dic" => some 12
  | _ => none

/-- Gregorian leap-year rule, as used by `chrono`'s calendar validation. -/
def isLeap (y : Int) : Bool := (y % 4 == 0 && y % 100 != 0) || y % 400 == 0

/-- Days in a month of a given year. -/
def daysInMonth (y : Int) (m : Nat) : Nat :=
  match m with
  | 2 => if isLeap y then 29 else 28
  | 4 | 6 | 9 | 11 => 30
  | _ => 31

/-- Model of `chrono::NaiveDate::from_ymd_opt`: calendar validity. -/
def fromYmd? (y : Int) (m d : Nat) : Option NaiveDate :=
  if 1 ≤ m ∧ m ≤ 12 ∧ 1 ≤ d ∧ d ≤ daysInMonth y m then some ⟨y, m, d⟩ else none

/-- Model of `NaiveDate::parse_from_str(&format!("{d}/{m}/{y}"), "%d/%m/%Y")`
for a numeric day and month and a raw year token: the year token must be all
digits and the triple a valid calendar date (a day or month too wide for the
`%d`/`%m` fields is already calendar-invalid). -/
def parseFormattedDMY (d m : Nat) (y : Str) : Option NaiveDate :=
  match parseNat? y with
  | none => none
  | some yn => fromYmd? (Int.ofNat yn) m d

/-- Model of the same `"%d/%m/%Y"` parse when the day is a raw token too
(`src/venues/theaters/verdi.rs` line 112): `%d` consumes at most two digits,
so a day token longer than two characters cannot match. -/
def parseDayTokenDMY (dTok : Str) (m : Nat) (y : Str) : Option NaiveDate :=
  if dTok.length ≤ 2 then
    match parseNat? dTok with
    | none => none
    | some d => parseFormattedDMY d m y
  else none

/-- A partially known date entry of the Verdi multi-date grammar:
`(Option<day>, Option<month>, Option<year-token>)`
(`src/venues/theaters/verdi.rs` line 131). -/
abbrev Triple := Option Nat × Option Nat × Option Str

namespace Verdi

/-- One pass of the loop at `src/venues/theaters/verdi.rs` lines 133-168
over the comma-separated parts, building the partially known triples.
`ret none` models the early `return None` on a malformed final part and
`panic` the `parse::<u32>().unwrap()` calls on day tokens. -/
def collectTuples : List Str → PanicOr (Option (List Triple))
  | [] => PanicOr.ret (some [])
  | [lastPart] =>
      match splitWhitespace (trimChars lastPart) with
      | dTok :: mTok :: yTok :: _ =>
          match parseU32? dTok with
          | none => PanicOr.panic
          | some d =>
              match italian_month_to_number mTok with
              | some m => PanicOr.ret (some [(some d, some m, some yTok)])
              | none => PanicOr.ret (some [])
      | _ => PanicOr.ret none
  | p :: rest =>
      match splitWhitespace (trimChars p) with
      | [dTok] =>
          match parseU32? dTok with
          | none => PanicOr.panic
          | some d =>
              match collectTuples rest with
              | PanicOr.panic => PanicOr.panic
              | PanicOr.ret none => PanicOr.ret none
              | PanicOr.ret (some ts) => PanicOr.ret (some ((some d, none, none) :: ts))
      | [dTok, mTok] =>
          match parseU32? dTok with
          | none => PanicOr.panic
          | some d =>
              match italian_month_to_number mTok with
              | some m =>
                  match collectTuples rest with
                  | PanicOr.panic => PanicOr.panic
                  | PanicOr.ret none => PanicOr.ret none
                  | PanicOr.ret (some ts) => PanicOr.ret (some ((some d, some m, none) :: ts))
              | none => collectTuples rest
      | _ => collectTuples rest

/-- One step of the backward fill loop at `src/venues/theaters/verdi.rs`
lines 173-186: the running `(current_month, current_year)` state and the
updated triple. -/
def fillStep (st : Option Nat × Option Str) (t : Triple) :
    (Option Nat × Option Str) × Triple :=
  ((if t.2.1.isSome then t.2.1 else st.1, if t.2.2.isSome then t.2.2 else st.2),
   (t.1, if t.2.1.isSome then t.2.1 else st.1, if t.2.2.isSome then t.2.2 else st.2))

/-- The fill loop run over an explicit list (the reversed tuple list). -/
def fillRevGo : (Option Nat × Option Str) → List Triple → List Triple
  | _, [] => []
  | st, t :: ts => (fillStep st t).2 :: fillRevGo (fillStep st t).1 ts

/-- The backward month/year propagation pass of
`src/venues/theaters/verdi.rs` lines 171-186: iterate over the tuples in
reverse, fill blanks from the running state, and restore the original order. -/
def fillBack (l : List Triple) : List Triple :=
  (fillRevGo (none, none) l.reverse).reverse

/-- The state of the fill loop after processing a list of triples. -/
def stateAfter (st : Option Nat × Option Str) (l : List Triple) :
    Option Nat × Option Str :=
  l.foldl (fun s t => (fillStep s t).1) st

/-- The first explicit month in a tuple list. -/
def firstMonth (l : List Triple) : Option Nat := l.findSome? (fun t => t.2.1)

/-- The first explicit year token in a tuple list. -/
def firstYear (l : List Triple) : Option Str := l.findSome? (fun t => t.2.2)

/-- The claim's reading of the propagation pass, stated in its own words:
scanning the entry list right-to-left and propagating the most recently seen
month/year backward means each entry receives the nearest explicit month and
year at its own position or to its right. -/
def propagationSpec : List Triple → List Triple
  | [] => []
  | t :: ts => (t.1, firstMonth (t :: ts), firstYear (t :: ts)) :: propagationSpec ts

/-- The conversion loop at `src/venues/theaters/verdi.rs` lines 189-197:
every complete triple that forms a valid calendar date becomes a date. -/
def tuplesToDates (l : List Triple) : List NaiveDate :=
  l.filterMap (fun t =>
    match t with
    | (some d, some m, some y) => parseFormattedDMY d m y
    | _ => none)

/-- `parse_multiple_dates` from `src/venues/theaters/verdi.rs` lines 120-204. -/
def parse_multiple_dates (s : Str) : PanicOr (Option DateSet) :=
  let parts := splitOnChar ',' s
  if parts.length < 2 then PanicOr.ret none
  else
    match collectTuples parts with
    | PanicOr.panic => PanicOr.panic
    | PanicOr.ret none => PanicOr.ret none
    | PanicOr.ret (some tuples) =>
        let dates := tuplesToDates (fillBack tuples)
        if dates = [] then PanicOr.ret none else PanicOr.ret (some ⟨dates⟩)

/-- `parse_single_date` from `src/venues/theaters/verdi.rs` lines 102-117:
format `[day_name] [day] [month] [year] ...`. -/
def parse_single_date (s : Str) : Option DateSet :=
  match splitWhitespace s with
  | _ :: dTok :: mTok :: yTok :: _ =>
      match italian_month_to_number mTok with
      | none => none
      | some m =>
          match parseDayTokenDMY dTok m yTok with
          | none => none
          | some date => some ⟨[date]⟩
  | _ => none

/-- `parse_date` from `src/venues/theaters/verdi.rs` lines 88-99. -/
def parse_date (s : Str) : PanicOr (Option DateSet) :=
  let trimmed := trimChars s
  if trimmed = [] then PanicOr.ret none
  else if trimmed.contains ',' then parse_multiple_dates trimmed
  else PanicOr.ret (parse_single_date trimmed)

end Verdi

namespace Verdi

theorem stateAfter_append (st : Option Nat × Option Str) (xs ys : List Triple) :
    stateAfter st (xs ++ ys) = stateAfter (stateAfter st xs) ys := by
  simp [stateAfter, List.foldl_append]

theorem fillRevGo_append (ys : List Triple) :
    ∀ (xs : List Triple) (st : Option Nat × Option Str),
      fillRevGo st (xs ++ ys) = fillRevGo st xs ++ fillRevGo (stateAfter st xs) ys := by
  intro xs
  induction xs with
  | nil => intro st; rfl
  | cons x xs ih =>
      intro st
      simp only [List.cons_append, fillRevGo, List.append_eq]
      rw [ih]
      rfl

theorem stateAfter_reverse (l : List Triple) :
    stateAfter (none, none) l.reverse = (firstMonth l, firstYear l) := by
  induction l with
  | nil => rfl
  | cons t ts ih =>
      obtain ⟨d, m, y⟩ := t
      rw [List.reverse_cons, stateAfter_append, ih]
      cases m <;> cases y <;>
        simp [stateAfter, fillStep, firstMonth, firstYear, List.findSome?_cons]

/-- The backward fill loop of `parse_multiple_dates` computes exactly the
claim's right-to-left propagation semantics. -/
theorem fillBack_eq_propagationSpec : ∀ l : List Triple, fillBack l = propagationSpec l := by
  intro l
  induction l with
  | nil => rfl
  | cons t ts ih =>
      obtain ⟨d, m, y⟩ := t
      simp only [fillBack, List.reverse_cons, fillRevGo_append, stateAfter_reverse,
        List.reverse_append, propagationSpec]
      rw [← fillBack, ih]
      cases m <;> cases y <;>
        simp [fillRevGo, fillStep, firstMonth, firstYear, List.findSome?_cons]

end Verdi

/-- The multi-date list of the C5 example. -/
def verdiMultiExample : Str := "28, 30 novembre, 5, 7, 11, 13 dicembre 2025".data

/-- The six dates the C5 example must produce. -/
def verdiExpected : DateSet :=
  ⟨[⟨2025, 11, 28⟩, ⟨2025, 11, 30⟩, ⟨2025, 12, 5⟩, ⟨2025, 12, 7⟩,
    ⟨2025, 12, 11⟩, ⟨2025, 12, 13⟩]⟩

/-- C5: parsing `"28, 30 novembre, 5, 7, 11, 13 dicembre 2025"` yields exactly
six dates — Nov 28 and 30 and Dec 5, 7, 11 and 13 of 2025, with months
propagated right-to-left onto earlier entries lacking one — whose bounding
range is Nov 28, 2025 to Dec 13, 2025; and in general the backward fill pass
of `parse_multiple_dates` gives every entry the most recently seen month and
year scanning right-to-left (the nearest explicit one at or after its own
position), after which every complete valid triple becomes a date. -/
theorem c5_multi_date_propagation :
    Verdi.parse_date verdiMultiExample = PanicOr.ret (some verdiExpected)
    ∧ verdiExpected.dates.length = 6
    ∧ verdiExpected.first = ⟨2025, 11, 28⟩
    ∧ verdiExpected.last = ⟨2025, 12, 13⟩
    ∧ verdiExpected.as_range = ⟨⟨2025, 11, 28⟩, ⟨2025, 12, 13⟩⟩
    ∧ (∀ l : List Triple, Verdi.fillBack l = Verdi.propagationSpec l) :=
  ⟨by decide, by decide, by decide, by decide, by decide,
   Verdi.fillBack_eq_propagationSpec⟩

/-- C6: the date parsers are not all panic-free. `parse_multiple_dates` in
`src/venues/theaters/verdi.rs` unwraps `parse::<u32>()` on every day token
(lines 143, 156, 160), so the malformed input `"a, 1 dicembre 2025"` — whose
first entry is not a number — panics instead of yielding `None`. -/
theorem c6_verdi_day_token_panics :
    Verdi.parse_date "a, 1 dicembre 2025".data = PanicOr.panic := by
  decide

/-! ## Movie-group reconciliation ordering (pure tail of `fetch` in
`src/venues/cinemas/mod.rs`, lines 87-105) -/

/-- The comparator of the inner sort at `src/venues/cinemas/mod.rs` line 91:
ascending tag-set cardinality, so base (no-tag) variants come first. -/
def tagLe (a b : Event) : Prop := a.tags.card ≤ b.tags.card

instance : DecidableRel tagLe := fun _ _ => Nat.decLe _ _

instance : IsTotal Event tagLe := ⟨fun a b => Nat.le_total a.tags.card b.tags.card⟩

instance : IsTrans Event tagLe := ⟨fun _ _ _ h h' => Nat.le_trans h h'⟩

/-- The title of a variant list's first element, as compared by the outer sort
at `src/venues/cinemas/mod.rs` line 102 (`a[0].title`; every group is
non-empty there). -/
def headTitle (l : List Event) : String := ((l.head?).map Event.title).getD ""

/-- The comparator of the outer sort: alphabetical by first variant's title. -/
def variantLe (a b : List Event) : Prop := headTitle a ≤ headTitle b

instance : DecidableRel variantLe := fun a b => inferInstanceAs (Decidable (headTitle a ≤ headTitle b))

instance : IsTotal (List Event) variantLe := ⟨fun a b => le_total (headTitle a) (headTitle b)⟩

instance : IsTrans (List Event) variantLe := ⟨fun _ _ _ h h' => le_trans h h'⟩

/-- The assignment at `src/venues/cinemas/mod.rs` lines 95-97: the LAST
variant of the sorted group receives the group's description
(`variants.last_mut()`). -/
def setLastDesc : List Event → Option String → List Event
  | [], _ => []
  | [x], d => [{ x with description := d }]
  | x :: y :: t, d => x :: setLastDesc (y :: t) d

/-- Per-group processing of `src/venues/cinemas/mod.rs` lines 89-98: sort the
variants by ascending tag-set cardinality with a stable comparison sort
(modelling `Vec::sort_by`), then give the last variant the group description. -/
def processGroup (g : MovieGroup) : List Event :=
  setLastDesc (List.insertionSort tagLe g.movies) g.description

/-- The whole pure tail of `fetch`: process each group, then sort the groups
alphabetically by their first variant's title (line 102). The `HashMap`
iteration order is irrelevant because of this final sort. -/
def reconcileGroups (gs : List MovieGroup) : List (List Event) :=
  List.insertionSort variantLe (gs.map processGroup)

theorem setLastDesc_tags_of_mem (d : Option String) :
    ∀ (l : List Event) (b : Event), b ∈ setLastDesc l d → ∃ b' ∈ l, b'.tags = b.tags := by
  intro l
  induction l with
  | nil => intro b h; cases h
  | cons x t ih =>
      intro b h
      cases t with
      | nil =>
          simp only [setLastDesc, List.mem_singleton] at h
          exact ⟨x, List.mem_cons_self x [], by rw [h]⟩
      | cons y t' =>
          simp only [setLastDesc, List.mem_cons] at h
          rcases h with h | h
          · exact ⟨x, List.mem_cons_self _ _, by rw [h]⟩
          · obtain ⟨b', hb', htags⟩ := ih b h
            exact ⟨b', List.mem_cons_of_mem x hb', htags⟩

theorem sorted_setLastDesc (d : Option String) :
    ∀ l : List Event, List.Sorted tagLe l → List.Sorted tagLe (setLastDesc l d) := by
  intro l
  induction l with
  | nil => intro _; simp [setLastDesc]
  | cons x t ih =>
      intro hs
      cases t with
      | nil => simp [setLastDesc, List.Sorted]
      | cons y t' =>
          rw [List.sorted_cons] at hs
          obtain ⟨hx, ht⟩ := hs
          have : List.Sorted tagLe (setLastDesc (y :: t') d) := ih ht
          rw [setLastDesc, List.sorted_cons]
          refine ⟨fun b hb => ?_, this⟩
          obtain ⟨b', hb', htags⟩ := setLastDesc_tags_of_mem d (y :: t') b hb
          have := hx b' hb'
          simpa [tagLe, htags] using this

theorem getLast_setLastDesc (d : Option String) :
    ∀ l : List Event, l ≠ [] →
      ∃ x, l.getLast? = some x ∧ (setLastDesc l d).getLast? = some { x with description := d } := by
  intro l
  induction l with
  | nil => intro h; exact absurd rfl h
  | cons x t ih =>
      intro _
      cases t with
      | nil => exact ⟨x, rfl, rfl⟩
      | cons y t' =>
          obtain ⟨z, hz, hz'⟩ := ih (by simp)
          refine ⟨z, ?_, ?_⟩
          · rw [List.getLast?_cons_cons, hz]
          · have hne : setLastDesc (y :: t') d ≠ [] := by
              cases t' <;> simp [setLastDesc]
            rw [setLastDesc]
            cases hsl : setLastDesc (y :: t') d with
            | nil => exact absurd hsl hne
            | cons w ws =>
                rw [List.getLast?_cons_cons, ← hsl, hz']

/-- C9 as amended: in the reconciled movie output the groups are ordered
alphabetically by their first variant's title and, within each group, variants
are ordered by ascending tag-set cardinality with the base (no-tag) variant
first; it is the LAST variant of each group — not the first — that carries the
group's representative description prose. -/
theorem c9_reconcile_order_amended (gs : List MovieGroup)
    (hne : ∀ g ∈ gs, g.movies ≠ []) :
    List.Sorted variantLe (reconcileGroups gs)
    ∧ ∀ l ∈ reconcileGroups gs, ∃ g ∈ gs, l = processGroup g
        ∧ List.Sorted tagLe l
        ∧ ∃ e, l.getLast? = some e ∧ e.description = g.description := by
  refine ⟨List.sorted_insertionSort variantLe _, fun l hl => ?_⟩
  have hmem : l ∈ gs.map processGroup :=
    (List.perm_insertionSort variantLe (gs.map processGroup)).mem_iff.mp hl
  obtain ⟨g, hg, rfl⟩ := List.mem_map.mp hmem
  refine ⟨g, hg, rfl, sorted_setLastDesc _ _ (List.sorted_insertionSort tagLe _), ?_⟩
  have hsne : List.insertionSort tagLe g.movies ≠ [] := by
    intro h0
    have hperm := List.perm_insertionSort tagLe g.movies
    rw [h0] at hperm
    exact hne g hg hperm.symm.eq_nil
  obtain ⟨x, _, hx'⟩ := getLast_setLastDesc g.description _ hsne
  exact ⟨{ x with description := g.description }, hx', rfl⟩

/-- Concrete group: a base variant and a "3D" variant, neither holding a
description of its own, with the group description present. -/
def mgC9 : MovieGroup :=
  ⟨"dune", some "Desc",
   [{ id := "dune", title := "Dune", category := "Cinema", locations := {"A"},
      time_frame := none, description := none, summary := none, tags := ∅ },
    { id := "dune 3d", title := "Dune", category := "Cinema", locations := {"A"},
      time_frame := none, description := none, summary := none, tags := {"3D"} }]⟩

/-- C9 counterexample: after processing `mgC9`, the FIRST variant of the group
carries no description — the group's representative prose `"Desc"` sits on the
last variant instead, so renderers cannot default to the first variant's prose
as the claim states. -/
theorem c9_first_variant_lacks_description :
    ((processGroup mgC9).head?.map Event.description) = some none
    ∧ mgC9.description = some "Desc"
    ∧ ((processGroup mgC9).getLast?.map Event.description) = some (some "Desc") := by
  refine ⟨?_, rfl, ?_⟩ <;> decide

/-- Witness for the amended C9: the full statement at the one-group list
`[mgC9]`, whose group is non-empty. -/
theorem c9_reconcile_order_witness :
    List.Sorted variantLe (reconcileGroups [mgC9])
    ∧ ∀ l ∈ reconcileGroups [mgC9], ∃ g ∈ [mgC9], l = processGroup g
        ∧ List.Sorted tagLe l
        ∧ ∃ e, l.getLast? = some e ∧ e.description = g.description :=
  c9_reconcile_order_amended [mgC9] (by decide)
